import Mathlib

/-!
Shallow embedding of the core of `ezfio.py` (ezfio 1.9, an FIO-based SSD
benchmark orchestrator), together with proofs about the embedded
functions.

Modelling conventions:
* Python floats are modelled as exact rationals (`ℚ`); Python ints as
  `ℕ`/`ℤ`.
* `"{0:0.Nf}".format` and Python `round` are modelled by exact
  round-half-to-even at the given number of decimal places.
* Imperative control flow (skip decisions, error raising, file
  creation/deletion) is modelled by explicit outcome records; exceptions
  become `raised` flags.
* Each definition's doc string names the function of `ezfio.py` it embeds.
-/

namespace Ezfio

/-- Rounding used by Python `round` and by `"{0:0.Nf}".format` of a value
modelled exactly: round half to even over `ℚ`, yielding an integer. -/
def roundHalfEven (q : ℚ) : ℤ :=
  let f : ℤ := ⌊q⌋
  let r : ℚ := q - (f : ℚ)
  if r < 1 / 2 then f
  else if 1 / 2 < r then f + 1
  else if f % 2 = 0 then f else f + 1

/-- Value denoted by the string `"{0:0.df}".format(q)`: `q` rounded
half-to-even at `d` decimal places. -/
def fmtRound (d : ℕ) (q : ℚ) : ℚ :=
  (roundHalfEven (q * (10 : ℚ) ^ d) : ℚ) / (10 : ℚ) ^ d

/-- ezfio.py `plat_idx_to_val` (lines 602-614): decode an obsolete FIO
log-linear latency-bucket index into the latency value it represents.
The Python defaults are `FIO_IO_U_PLAT_BITS = 6`, `FIO_IO_U_PLAT_VAL = 64`;
here they are the first two explicit arguments. -/
def plat_idx_to_val (FIO_IO_U_PLAT_BITS FIO_IO_U_PLAT_VAL idx : ℕ) : ℚ :=
  if idx < FIO_IO_U_PLAT_VAL <<< 1 then (idx : ℚ)
  else
    let error_bits := (idx >>> FIO_IO_U_PLAT_BITS) - 1
    let base := (1 : ℕ) <<< (error_bits + FIO_IO_U_PLAT_BITS)
    let k := idx % FIO_IO_U_PLAT_VAL
    (base : ℚ) + ((k : ℚ) + 1 / 2) * (((1 : ℕ) <<< error_bits : ℕ) : ℚ)

/-- Total operation count recorded in a latency histogram: the sum of all
bucket counts.  A histogram is a list of `(latencyNsBucketKey, count)`
pairs (the JSON `bins` dictionary of ezfio.py `WriteExceedance`). -/
def binSum (bins : List (ℕ × ℕ)) : ℕ := (bins.map Prod.snd).sum

/-- Bucket keys sorted ascending, as in ezfio.py `WriteExceedance`
(lines 651-654: collect the keys in `lat_ns`, iterate `sorted(lat_ns)`).
Since the keys of a JSON dictionary are distinct, iterating the sorted
keys and looking each one up is the same as sorting the pairs by key. -/
def sortBins (bins : List (ℕ × ℕ)) : List (ℕ × ℕ) :=
  List.insertionSort (fun a b => a.1 ≤ b.1) bins

/-- Accumulation loop of ezfio.py `WriteExceedance` (lines 654-661): walk
the buckets in the order given, add each count to the running total
`runttl`, and for each bucket with a nonzero count emit the CSV line
`(latencyKey / 1000, 1 - runttl / ios)` (nanoseconds to microseconds). -/
def excLoop (ios : ℕ) : ℕ → List (ℕ × ℕ) → List (ℚ × ℚ)
  | _, [] => []
  | runttl, (lat, cnt) :: rest =>
    if 0 < cnt then
      ((lat : ℚ) / 1000, 1 - ((runttl + cnt : ℕ) : ℚ) / (ios : ℚ)) ::
        excLoop ios (runttl + cnt) rest
    else excLoop ios (runttl + cnt) rest

/-- ezfio.py `WriteExceedance` (lines 616-661), modern (`fio >= 2.99`)
path: under the guard `if ios:` sort the bucket keys ascending and run the
accumulation loop; with `ios == 0` nothing is emitted. -/
def WriteExceedance (ios : ℕ) (bins : List (ℕ × ℕ)) : List (ℚ × ℚ) :=
  if 0 < ios then excLoop ios 0 (sortBins bins) else []

/-- One parsed line of an FIO interval log, as consumed by ezfio.py
`CombineThreadOutputs`: `(timestampMs, value, direction)` with direction
`0` for read and `1` for write. -/
abbrev LogEntry := ℕ × ℕ × ℕ

/-- Inner `while` loop of ezfio.py `CombineThreadOutputs` (lines 751-758):
while at least one log line remains (the raw file ends with a newline, so
`len(lines) > 1` holds exactly while a real entry remains) and the
timestamp of the previously consumed line (`nexttime`, initially `0`) is
`< x`, consume the next line: record its timestamp (milliseconds over
`1000.0`) as the new `nexttime` and overwrite `wiops` (direction `1`) or
`riops` (any other direction) with its value. -/
def advance (x : ℕ) : List LogEntry → ℕ → ℕ → ℚ → ℕ × ℕ × ℚ × List LogEntry
  | [], riops, wiops, nexttime => (riops, wiops, nexttime, [])
  | e :: rest, riops, wiops, nexttime =>
    if nexttime < (x : ℚ) then
      if e.2.2 = 1 then advance x rest riops e.2.1 ((e.1 : ℚ) / 1000)
      else advance x rest e.2.1 wiops ((e.1 : ℚ) / 1000)
    else (riops, wiops, nexttime, e :: rest)

/-- Per-second loop of ezfio.py `CombineThreadOutputs` (lines 739-758) for
one log file: for each `x` from `0` to `runtime + extra_runtime - 1`,
first record the current `(riops, wiops)` into the series, then run the
`while` loop that advances the cursor. -/
def logSeriesAux : ℕ → ℕ → ℕ → ℕ → ℚ → List LogEntry → List (ℕ × ℕ)
  | 0, _, _, _, _, _ => []
  | n + 1, x, riops, wiops, nexttime, lines =>
    (riops, wiops) ::
      (match advance x lines riops wiops nexttime with
       | (r2, w2, nt2, rest) => logSeriesAux n (x + 1) r2 w2 nt2 rest)

/-- The `(read, write)` step-function series one log contributes over `n`
seconds, starting from `riops = wiops = 0` and `nexttime = 0`. -/
def logSeries (n : ℕ) (entries : List LogEntry) : List (ℕ × ℕ) :=
  logSeriesAux n 0 0 0 0 entries

/-- Pointwise sum of the per-log series, i.e. the `iops[]`/`iops_w[]`
accumulation across files of ezfio.py `CombineThreadOutputs`. -/
def sumSeries (n : ℕ) (ss : List (List (ℕ × ℕ))) : List (ℕ × ℕ) :=
  ss.foldl
    (fun acc s => (acc.zip s).map fun p => (p.1.1 + p.2.1, p.1.2 + p.2.2))
    (List.replicate n (0, 0))

/-- ezfio.py `CombineThreadOutputs` (lines 708-778) in the non-cluster
(single host) case: combine the per-file series over
`n = runtime + extra_runtime` seconds, then emit one output row per
second from `extra_runtime / 2` to `n - 1`.  For a latency metric
(`lat = true`) a row holds the read and write means over the file count;
for a throughput metric it holds the single summed read+write value. -/
def CombineThreadOutputs (runtime extra : ℕ) (lat : Bool)
    (logs : List (List LogEntry)) : List (List ℚ) :=
  let n := runtime + extra
  let filecnt := logs.length
  let tot := sumSeries n (logs.map (logSeries n))
  (tot.drop (extra / 2)).map fun p =>
    if 0 < filecnt ∧ lat = true then
      [(p.1 : ℚ) / (filecnt : ℚ), (p.2 : ℚ) / (filecnt : ℚ)]
    else [((p.1 + p.2 : ℕ) : ℚ)]

/-- Per-direction metrics parsed from a successful FIO JSON payload in
ezfio.py `RunTest` (lines 893-907): read/write IOPS, mean read/write
latency in microseconds, system and user CPU. -/
structure EngineStats where
  rdiops : ℚ
  wriops : ℚ
  rlat : ℚ
  wlat : ℚ
  syscpu : ℚ
  usrcpu : ℚ
deriving DecidableEq

/-- All-zero stats, the values ezfio.py `RunTest` keeps (lines 869-874)
when the test was skipped and the JSON payload is never parsed. -/
def EngineStats.zero : EngineStats := ⟨0, 0, 0, 0, 0, 0⟩

/-- Outcome of one FIO invocation as consumed by ezfio.py `RunTest`: the
exit code, the parsed per-direction stats of the selected client record,
and the per-direction completion-latency histograms with their total
operation counts. -/
structure EngineResult where
  exitCode : ℤ
  stats : EngineStats
  readIos : ℕ
  readBins : List (ℕ × ℕ)
  writeIos : ℕ
  writeBins : List (ℕ × ℕ)
deriving DecidableEq

/-- One data row of the per-test results CSV written by ezfio.py `RunTest`
(lines 914-916).  String fields of the Python row (`seqrand`) are not
modelled; the numeric fields are. -/
structure CsvRow where
  wmix : ℕ
  bs : ℕ
  threads : ℕ
  iodepth : ℕ
  iops : ℚ
  mbps : ℚ
  rlat : ℚ
  wlat : ℚ
  syscpu : ℚ
  usrcpu : ℚ
deriving DecidableEq

/-- Observable outcome of one ezfio.py `RunTest` call: the skip decision,
whether FIO was invoked, job-specification file accounting, whether
`FIOError` was raised (with `ERROR` appended to the test CSV), whether
the run died with the untyped `UnboundLocalError` of line 843 (reading
`iomin` on a skip path where `blockdev --getpbsz` had failed), the CSV
result row if one was appended, the two exceedance CSV outputs, and the
returned formatted latency. -/
structure RunTestOutcome where
  skipped : Bool
  engineInvoked : Bool
  jobfilesCreated : ℕ
  jobfilesDeleted : ℕ
  raised : Bool
  crashed : Bool
  errorMarked : Bool
  csvRow : Option CsvRow
  excRead : List (ℚ × ℚ)
  excWrite : List (ℚ × ℚ)
  retLat : ℚ
deriving DecidableEq

/-- Skip decision of ezfio.py `RunTest` (lines 828-836): skip when
`blockdev --getpbsz` succeeded (`pbszCode == 0`) and the block size is
below the reported minimum, or when running read-only with a nonzero
write mix. -/
def skipTest (pbszCode : ℤ) (bs iomin wmix : ℕ) (readOnly : Bool) : Bool :=
  (if pbszCode = 0 then decide (bs < iomin) else false)
    || (readOnly && decide (wmix ≠ 0))

/-- ezfio.py `RunTest` (lines 597-925), with the IO steps replaced by
outcome accounting.  `clusterHosts = none` is the single-node case (one
job file); `some h` is cluster mode with `h` hosts (one job file each).
The variable `iomin` is assigned only when `blockdev --getpbsz` exits 0
(line 831), but the skip message at line 843 reads it whenever
`skiptest` is set — also when the skip came solely from read-only mode
with a nonzero write mix (line 835).  On that path (`skiptest` with
`pbszCode ≠ 0`) the Python run dies with `UnboundLocalError` before the
job-file unlink (lines 853-857), before the CSV append (914-916) and
before the exceedance writes (918-923): the job files leak and nothing
is emitted; this is the `crashed` branch.  Otherwise the job files are
unlinked (853-857) before the exit-code check (860-862), so on both the
success path and the `FIOError` path every created job file is deleted.
On success the result CSV row is appended with
`iops = "{0:0.0f}".format(rdiops + wriops)`,
`mbps = "{0:0.2f}".format((rdiops + wriops) * bs / (1024 * 1024))`, raw
`rlat`/`wlat`/CPU values, and the exceedance CSVs receive either the
skipped-run placeholder `1,1` line or the `WriteExceedance` output. -/
def RunTest (clusterHosts : Option ℕ) (wmix bs threads iodepth : ℕ)
    (pbszCode : ℤ) (iomin : ℕ) (readOnly : Bool) (engine : EngineResult) :
    RunTestOutcome :=
  let created := match clusterHosts with
    | none => 1
    | some h => h
  let skiptest := skipTest pbszCode bs iomin wmix readOnly
  if skiptest && decide (pbszCode ≠ 0) then
    { skipped := skiptest
      engineInvoked := false
      jobfilesCreated := created
      jobfilesDeleted := 0
      raised := false
      crashed := true
      errorMarked := false
      csvRow := none
      excRead := []
      excWrite := []
      retLat := 0 }
  else
  let code : ℤ := if skiptest then 0 else engine.exitCode
  if code ≠ 0 then
    { skipped := skiptest
      engineInvoked := !skiptest
      jobfilesCreated := created
      jobfilesDeleted := created
      raised := true
      crashed := false
      errorMarked := true
      csvRow := none
      excRead := []
      excWrite := []
      retLat := 0 }
  else
    let s := if skiptest then EngineStats.zero else engine.stats
    { skipped := skiptest
      engineInvoked := !skiptest
      jobfilesCreated := created
      jobfilesDeleted := created
      raised := false
      crashed := false
      errorMarked := false
      csvRow := some
        { wmix := wmix
          bs := bs
          threads := threads
          iodepth := iodepth
          iops := fmtRound 0 (s.rdiops + s.wriops)
          mbps := fmtRound 2 ((s.rdiops + s.wriops) * (bs : ℚ) / (1024 * 1024))
          rlat := s.rlat
          wlat := s.wlat
          syscpu := s.syscpu
          usrcpu := s.usrcpu }
      excRead :=
        if skiptest then [(1, 1)]
        else WriteExceedance engine.readIos engine.readBins
      excWrite :=
        if skiptest then [(1, 1)]
        else WriteExceedance engine.writeIos engine.writeBins
      retLat := fmtRound 1 (max s.rlat s.wlat) }

/-- Observable outcome of one conditioning pass (`SequentialConditioning`
or `RandomConditioning`): whether FIO was invoked, job-file accounting,
whether `FIOError` was raised, and whether the `DONE` triple was
returned. -/
structure CondOutcome where
  engineInvoked : Bool
  filesCreated : ℕ
  filesDeleted : ℕ
  raised : Bool
  returnedDone : Bool
deriving DecidableEq

/-- ezfio.py `SequentialConditioning` (lines 474-530): generate one job
file per host (one in the single-node case), run FIO unless `readOnly`
(in which case the exit code is forced to `0` without invoking FIO),
unlink every job file, then raise `FIOError` on a nonzero exit code or
return the `DONE` triple. -/
def SequentialConditioning (clusterHosts : Option ℕ) (readOnly : Bool)
    (engineCode : ℤ) : CondOutcome :=
  let created := match clusterHosts with
    | none => 1
    | some h => h
  let code : ℤ := if readOnly then 0 else engineCode
  { engineInvoked := !readOnly
    filesCreated := created
    filesDeleted := created
    raised := decide (code ≠ 0)
    returnedDone := decide (code = 0) }

/-- ezfio.py `RandomConditioning` (lines 533-594): identical control flow
to `SequentialConditioning` (only the generated job parameters differ). -/
def RandomConditioning (clusterHosts : Option ℕ) (readOnly : Bool)
    (engineCode : ℤ) : CondOutcome :=
  let created := match clusterHosts with
    | none => 1
    | some h => h
  let code : ℤ := if readOnly then 0 else engineCode
  { engineInvoked := !readOnly
    filesCreated := created
    filesDeleted := created
    raised := decide (code ≠ 0)
    returnedDone := decide (code = 0) }

/-- Abstract outcome of one work-plan job as seen by ezfio.py
`RunAllTests`: either the job completes (appending at most one result CSV
row) or its FIO invocation fails, raising `FIOError`. -/
inductive JobRun where
  | ok (row : Option CsvRow)
  | fioFailed
deriving DecidableEq

/-- ezfio.py `RunAllTests` (lines 1100-1196): run the work-plan jobs in
order, collecting the result CSV rows; a job whose FIO invocation failed
leaves `ret_mbps == "ERROR"` and the loop prints an error and calls
`sys.exit(2)`, so no later job runs.  The result is the list of appended
CSV rows together with the number of jobs that were started. -/
def RunAllTests : List JobRun → List CsvRow × ℕ
  | [] => ([], 0)
  | JobRun.ok r :: rest =>
    let p := RunAllTests rest
    (r.toList ++ p.1, p.2 + 1)
  | JobRun.fioFailed :: _ => ([], 1)

/-- A test descriptor as built by ezfio.py `AddTest` (lines 942-964).
The Python dict fields that are strings or closures (`name`, `seqrand`,
`desc`, `cmdline`, `bw`/`iops`/`lat` placeholders) are not modelled;
`threads` and `qdperthread` are `none` when the Python caller passes the
empty string (as the preparation rows do). -/
structure TestDescriptor where
  wmix : Option ℕ
  bs : Option ℕ
  qd : ℕ
  qdperthread : Option ℕ
  threads : Option ℕ
  iops_log : Bool
  runtime : Option ℕ
deriving DecidableEq

/-- ezfio.py `AddTest` (lines 942-964): build one descriptor; the queue
depth is `int(threads) * int(qdperthread)` when the `threads` field is
non-empty and `0` otherwise. -/
def AddTest (wmix bs threads qdperthread : Option ℕ) (iops_log : Bool)
    (runtime : Option ℕ) : TestDescriptor :=
  let qd := match threads with
    | some t => t * qdperthread.getD 0
    | none => 0
  { wmix := wmix
    bs := bs
    qd := qd
    qdperthread := qdperthread
    threads := threads
    iops_log := iops_log
    runtime := runtime }

/-- Concrete engine result used to evaluate the computed-output formulas
of `RunTest` at a run with fractional IOPS: exit code `0`, read IOPS
`1/2`, mean read latency `1/4` microseconds, everything else zero. -/
def engFrac : EngineResult :=
  { exitCode := 0
    stats :=
      { rdiops := 1 / 2
        wriops := 0
        rlat := 1 / 4
        wlat := 0
        syscpu := 0
        usrcpu := 0 }
    readIos := 0
    readBins := []
    writeIos := 0
    writeBins := [] }

/-- Concrete engine result with a nonzero exit code (a failed FIO
invocation), used to exercise the failure path of `RunTest`. -/
def engFail : EngineResult :=
  { exitCode := 1
    stats := EngineStats.zero
    readIos := 0
    readBins := []
    writeIos := 0
    writeBins := [] }

/-! Helper lemmas about the exceedance accumulation loop. -/

lemma frac_le_frac (ios : ℕ) {a b : ℚ} (h : a ≤ b) :
    a / (ios : ℚ) ≤ b / (ios : ℚ) := by
  rw [div_eq_mul_inv, div_eq_mul_inv]
  exact mul_le_mul_of_nonneg_right h (inv_nonneg.mpr (Nat.cast_nonneg ios))

lemma excLoop_sorted_and_bound (ios : ℕ) (l : List (ℕ × ℕ)) :
    ∀ t : ℕ,
      (((excLoop ios t l).map Prod.snd).Sorted (· ≥ ·)) ∧
      (∀ q ∈ (excLoop ios t l).map Prod.snd,
        q ≤ 1 - ((t : ℚ) + 1) / (ios : ℚ)) := by
  induction l with
  | nil => intro t; simp [excLoop]
  | cons p rest ih =>
    intro t
    obtain ⟨lat, cnt⟩ := p
    rcases Nat.eq_zero_or_pos cnt with h0 | hc
    · subst h0
      simpa [excLoop] using ih t
    · have ihtc := ih (t + cnt)
      have hcast : ((t + cnt : ℕ) : ℚ) = (t : ℚ) + (cnt : ℚ) := by push_cast; ring
      have hone : (1 : ℚ) ≤ (cnt : ℚ) := by exact_mod_cast hc
      have hmono2 : ((t : ℚ) + 1) / (ios : ℚ) ≤ ((t : ℚ) + (cnt : ℚ)) / (ios : ℚ) :=
        frac_le_frac ios (by linarith)
      have hbound : ∀ q ∈ (excLoop ios (t + cnt) rest).map Prod.snd,
          q ≤ 1 - ((t : ℚ) + (cnt : ℚ)) / (ios : ℚ) := by
        intro q hq
        have h1 := ihtc.2 q hq
        rw [hcast] at h1
        have hmono : ((t : ℚ) + (cnt : ℚ)) / (ios : ℚ) ≤
            ((t : ℚ) + (cnt : ℚ) + 1) / (ios : ℚ) :=
          frac_le_frac ios (by linarith)
        linarith
      constructor
      · simp only [excLoop, if_pos hc, List.map_cons, List.sorted_cons]
        refine ⟨?_, ihtc.1⟩
        intro q hq
        have hb := hbound q hq
        rw [hcast]
        linarith
      · intro q hq
        simp only [excLoop, if_pos hc, List.map_cons, List.mem_cons] at hq
        rcases hq with rfl | hq
        · rw [hcast]
          linarith
        · have hb := hbound q hq
          linarith

lemma excLoop_nil_of_zero (ios : ℕ) (l : List (ℕ × ℕ)) :
    ∀ t : ℕ, (∀ p ∈ l, p.2 = 0) → excLoop ios t l = [] := by
  induction l with
  | nil => intro t _; simp [excLoop]
  | cons p rest ih =>
    intro t hz
    obtain ⟨lat, cnt⟩ := p
    have hc : cnt = 0 := hz (lat, cnt) (List.mem_cons_self _ _)
    subst hc
    simp only [excLoop]
    rw [if_neg (lt_irrefl 0)]
    exact ih (t + 0) fun p hp => hz p (List.mem_cons_of_mem _ hp)

lemma binSum_eq_zero_of_zero (l : List (ℕ × ℕ)) (h : ∀ p ∈ l, p.2 = 0) :
    binSum l = 0 := by
  unfold binSum
  refine List.sum_eq_zero ?_
  intro x hx
  obtain ⟨p, hp, rfl⟩ := List.mem_map.mp hx
  exact h p hp

lemma one_le_binSum (l : List (ℕ × ℕ)) (h : ∃ p ∈ l, p.2 ≠ 0) :
    1 ≤ binSum l := by
  obtain ⟨p, hp, hne⟩ := h
  have hle : p.2 ≤ binSum l :=
    List.single_le_sum (fun x _ => Nat.zero_le x) _
      (List.mem_map_of_mem Prod.snd hp)
  omega

lemma excLoop_getLast (ios : ℕ) (l : List (ℕ × ℕ)) :
    ∀ t : ℕ, (∃ p ∈ l, p.2 ≠ 0) →
      ((excLoop ios t l).map Prod.snd).getLast? =
        some (1 - ((t + binSum l : ℕ) : ℚ) / (ios : ℚ)) := by
  induction l with
  | nil => intro t h; simp at h
  | cons p rest ih =>
    intro t hex
    obtain ⟨lat, cnt⟩ := p
    by_cases hrest : ∃ q ∈ rest, q.2 ≠ 0
    · have ihr := ih (t + cnt) hrest
      rcases Nat.eq_zero_or_pos cnt with h0 | hc
      · subst h0
        simp only [excLoop]
        rw [if_neg (lt_irrefl 0), ihr]
        have hn : t + 0 + binSum rest = t + binSum ((lat, 0) :: rest) := by
          simp [binSum]
        rw [hn]
      · have hnil : (excLoop ios (t + cnt) rest).map Prod.snd ≠ [] := by
          intro hn
          rw [hn] at ihr
          simp at ihr
        simp only [excLoop, if_pos hc, List.map_cons]
        rcases hm : (excLoop ios (t + cnt) rest).map Prod.snd with _ | ⟨b, l2⟩
        · exact absurd hm hnil
        · rw [hm] at ihr
          rw [List.getLast?_cons_cons, ihr]
          have hn2 : t + cnt + binSum rest = t + binSum ((lat, cnt) :: rest) := by
            simp [binSum]
            omega
          rw [hn2]
    · push_neg at hrest
      obtain ⟨q, hq, hqne⟩ := hex
      have hcnt : cnt ≠ 0 := by
        rcases List.mem_cons.mp hq with h | hmem
        · subst h
          exact hqne
        · exact absurd (hrest q hmem) hqne
      have hc : 0 < cnt := Nat.pos_of_ne_zero hcnt
      simp only [excLoop, if_pos hc, List.map_cons]
      rw [excLoop_nil_of_zero ios rest (t + cnt) hrest]
      have hz : binSum rest = 0 := binSum_eq_zero_of_zero rest hrest
      have hn3 : t + cnt = t + binSum ((lat, cnt) :: rest) := by
        have hz2 : (List.map Prod.snd rest).sum = 0 := hz
        simp only [binSum, List.map_cons, List.sum_cons]
        omega
      simp only [List.map_nil]
      rw [hn3]
      rfl

/-! Claim theorems. -/

/-- C1 (counterexample): at the histogram `[(5, 1)]` with `totalOps = 1`
the single emitted exceedance point has survivor fraction
`1 - 1/1 = 0`, so the final retained survivor fraction does not lie in
the half-open interval `(0, 1 - 1/totalOps]` (here `(0, 0]`, which is
empty).  This falsifies the final-value interval of the claim as
stated. -/
theorem writeExceedance_final_interval_cex :
    ¬ (∃ q : ℚ, ((WriteExceedance 1 [(5, 1)]).map Prod.snd).getLast? = some q ∧
        0 < q ∧ q ≤ 1 - 1 / ((1 : ℕ) : ℚ)) := by
  have hval : WriteExceedance 1 [(5, 1)] = [(5 / 1000, 0)] := by
    norm_num [WriteExceedance, sortBins, excLoop, List.insertionSort]
  rw [hval]
  rintro ⟨q, hq, hpos, _⟩
  have hq0 : q = 0 := by
    simpa using hq.symm
  rw [hq0] at hpos
  exact lt_irrefl 0 hpos

/-- C1 (amended): for every latency histogram with `0 < totalOps`, at
least one non-empty bucket, and bucket counts summing to at most
`totalOps`, the emitted exceedance curve has a non-increasing
survivor-fraction sequence, and the final retained survivor fraction
equals `1 - binSum/totalOps`, which lies in the closed interval
`[0, 1 - 1/totalOps]` (the claim's lower end must be closed: when the
counts sum to exactly `totalOps` the final fraction is `0`). -/
theorem writeExceedance_monotone_final (ios : ℕ) (bins : List (ℕ × ℕ))
    (hios : 0 < ios) (hne : ∃ p ∈ bins, p.2 ≠ 0) (hsum : binSum bins ≤ ios) :
    (((WriteExceedance ios bins).map Prod.snd).Sorted (· ≥ ·)) ∧
    ((WriteExceedance ios bins).map Prod.snd).getLast? =
      some (1 - (binSum bins : ℚ) / (ios : ℚ)) ∧
    0 ≤ 1 - (binSum bins : ℚ) / (ios : ℚ) ∧
    1 - (binSum bins : ℚ) / (ios : ℚ) ≤ 1 - 1 / (ios : ℚ) := by
  have hperm : List.Perm (sortBins bins) bins := List.perm_insertionSort _ bins
  have hsameSum : binSum (sortBins bins) = binSum bins :=
    List.Perm.sum_eq (hperm.map Prod.snd)
  have hne2 : ∃ p ∈ sortBins bins, p.2 ≠ 0 := by
    obtain ⟨p, hp, hpne⟩ := hne
    exact ⟨p, hperm.mem_iff.mpr hp, hpne⟩
  have hioscast : (0 : ℚ) < (ios : ℚ) := by exact_mod_cast hios
  refine ⟨?_, ?_, ?_, ?_⟩
  · simp only [WriteExceedance, if_pos hios]
    exact (excLoop_sorted_and_bound ios (sortBins bins) 0).1
  · simp only [WriteExceedance, if_pos hios]
    rw [excLoop_getLast ios (sortBins bins) 0 hne2, hsameSum, Nat.zero_add]
  · have h1 : (binSum bins : ℚ) / (ios : ℚ) ≤ 1 := by
      rw [div_le_one hioscast]
      exact_mod_cast hsum
    linarith
  · have h2 : (1 : ℚ) ≤ (binSum bins : ℚ) := by
      exact_mod_cast one_le_binSum bins hne
    have h3 : (1 : ℚ) / (ios : ℚ) ≤ (binSum bins : ℚ) / (ios : ℚ) :=
      frac_le_frac ios h2
    linarith

/-- C1 witness: the amended theorem applied to the concrete histogram
`[(20, 2), (10, 1)]` with `totalOps = 4`. -/
theorem writeExceedance_monotone_final_witness :
    ((0 < 4 ∧ (∃ p ∈ [((20 : ℕ), (2 : ℕ)), (10, 1)], p.2 ≠ 0) ∧
        binSum [(20, 2), (10, 1)] ≤ 4) ∧
      ((((WriteExceedance 4 [(20, 2), (10, 1)]).map Prod.snd).Sorted (· ≥ ·)) ∧
        ((WriteExceedance 4 [(20, 2), (10, 1)]).map Prod.snd).getLast? =
          some (1 - (binSum [(20, 2), (10, 1)] : ℚ) / ((4 : ℕ) : ℚ)) ∧
        0 ≤ 1 - (binSum [(20, 2), (10, 1)] : ℚ) / ((4 : ℕ) : ℚ) ∧
        1 - (binSum [(20, 2), (10, 1)] : ℚ) / ((4 : ℕ) : ℚ) ≤
          1 - 1 / ((4 : ℕ) : ℚ))) :=
  ⟨⟨by decide, by decide, by decide⟩,
    writeExceedance_monotone_final 4 [(20, 2), (10, 1)] (by decide) (by decide)
      (by decide)⟩

/-- C2: the obsolete log-linear bucket decoder with bit width `B = 6` and
linear-region width `V = 64` returns `idx` for every `idx < 2 * V = 128`,
and for `idx ≥ 128` returns `base + (k + 0.5) * 2 ^ errorBits` with
`errorBits = (idx >> 6) - 1`, `base = 2 ^ (errorBits + 6)` and
`k = idx mod 64`. -/
theorem plat_decode (idx : ℕ) :
    (idx < 128 → plat_idx_to_val 6 64 idx = (idx : ℚ)) ∧
    (128 ≤ idx →
      plat_idx_to_val 6 64 idx =
        (2 : ℚ) ^ (((idx >>> 6) - 1) + 6) +
          (((idx % 64 : ℕ) : ℚ) + 1 / 2) * (2 : ℚ) ^ ((idx >>> 6) - 1)) := by
  have h128 : (64 : ℕ) <<< 1 = 128 := by decide
  have hpow : ∀ n : ℕ, (((1 : ℕ) <<< n : ℕ) : ℚ) = (2 : ℚ) ^ n := by
    intro n
    rw [Nat.shiftLeft_eq, one_mul]
    push_cast
    rfl
  constructor
  · intro h
    simp only [plat_idx_to_val, h128]
    rw [if_pos h]
  · intro h
    simp only [plat_idx_to_val, h128]
    rw [if_neg (by omega), hpow, hpow]
    norm_num

/-- C2 witness: the decoder theorem applied at the concrete indices `5`
(linear region) and `129` (log-linear region, value `131`). -/
theorem plat_decode_witness :
    ((5 : ℕ) < 128 ∧ plat_idx_to_val 6 64 5 = ((5 : ℕ) : ℚ)) ∧
    (128 ≤ (129 : ℕ) ∧
      plat_idx_to_val 6 64 129 =
        (2 : ℚ) ^ ((((129 : ℕ) >>> 6) - 1) + 6) +
          ((((129 : ℕ) % 64 : ℕ) : ℚ) + 1 / 2) *
            (2 : ℚ) ^ (((129 : ℕ) >>> 6) - 1)) :=
  ⟨⟨by decide, (plat_decode 5).1 (by decide)⟩,
    ⟨by decide, (plat_decode 129).2 (by decide)⟩⟩

lemma combineExample2 :
    CombineThreadOutputs 2 0 false
        [[(0, 100, 0), (1000, 150, 0)], [(0, 50, 0), (1000, 60, 0)]] =
      [[(0 : ℚ)], [0]] := by
  norm_num [CombineThreadOutputs, sumSeries, logSeries, logSeriesAux, advance,
    List.replicate]

lemma combineExample3 :
    CombineThreadOutputs 3 0 false
        [[(0, 100, 0), (1000, 150, 0)], [(0, 50, 0), (1000, 60, 0)]] =
      [[(0 : ℚ)], [0], [210]] := by
  norm_num [CombineThreadOutputs, sumSeries, logSeries, logSeriesAux, advance,
    List.replicate]

/-- C3 (counterexample): merging the interval logs
`[(0 ms, 100, read), (1000 ms, 150, read)]` and
`[(0 ms, 50, read), (1000 ms, 60, read)]` as a throughput-type metric
over 2 output seconds does not yield `[150, 210]`. -/
theorem combineThreadOutputs_example_cex :
    CombineThreadOutputs 2 0 false
        [[(0, 100, 0), (1000, 150, 0)], [(0, 50, 0), (1000, 60, 0)]] ≠
      [[(150 : ℚ)], [210]] := by
  rw [combineExample2]
  norm_num

/-- C3 (amended): merging those two logs as a throughput-type metric over
2 output seconds yields `[0, 0]`: each second's aggregate is recorded
before the cursors advance, and the advance guard compares the timestamp
of the last consumed entry (initially `0`) with the output second, so
both entries of each log are consumed while processing second 1 and the
combined value `210` first appears at second 2 — over 3 output seconds
the series is `[0, 0, 210]`, and `150` never appears. -/
theorem combineThreadOutputs_example_actual :
    CombineThreadOutputs 2 0 false
        [[(0, 100, 0), (1000, 150, 0)], [(0, 50, 0), (1000, 60, 0)]] =
      [[(0 : ℚ)], [0]] ∧
    CombineThreadOutputs 3 0 false
        [[(0, 100, 0), (1000, 150, 0)], [(0, 50, 0), (1000, 60, 0)]] =
      [[(0 : ℚ)], [0], [210]] :=
  ⟨combineExample2, combineExample3⟩

/-! Helper lemmas about `RunTest`, formatting, and the orchestrator. -/

lemma fmtRound_zero (d : ℕ) : fmtRound d 0 = 0 := by
  norm_num [fmtRound, roundHalfEven]

lemma runTest_skipped_eq (clusterHosts : Option ℕ)
    (wmix bs threads iodepth : ℕ) (pbszCode : ℤ) (iomin : ℕ)
    (readOnly : Bool) (engine : EngineResult) :
    (RunTest clusterHosts wmix bs threads iodepth pbszCode iomin readOnly
        engine).skipped =
      skipTest pbszCode bs iomin wmix readOnly := by
  simp only [RunTest]
  split
  · rfl
  · split
    · rfl
    · split <;> rfl

lemma runTest_no_crash (clusterHosts : Option ℕ)
    (wmix bs threads iodepth : ℕ) (pbszCode : ℤ) (iomin : ℕ)
    (readOnly : Bool) (engine : EngineResult)
    (hok : pbszCode = 0 ∨ skipTest pbszCode bs iomin wmix readOnly = false) :
    (RunTest clusterHosts wmix bs threads iodepth pbszCode iomin readOnly
        engine).crashed = false ∧
    (RunTest clusterHosts wmix bs threads iodepth pbszCode iomin readOnly
        engine).jobfilesDeleted =
      (RunTest clusterHosts wmix bs threads iodepth pbszCode iomin readOnly
        engine).jobfilesCreated := by
  have hguard : (skipTest pbszCode bs iomin wmix readOnly &&
      decide (pbszCode ≠ 0)) = false := by
    rcases hok with h0 | hsf
    · subst h0
      simp
    · simp [hsf]
  constructor
  · simp only [RunTest, hguard, Bool.false_eq_true, if_false]
    split
    · rfl
    · split <;> rfl
  · simp only [RunTest, hguard, Bool.false_eq_true, if_false]
    split
    · rfl
    · split <;> rfl

lemma runAllTests_failStop (pre post : List JobRun)
    (hpre : ∀ j ∈ pre, j ≠ JobRun.fioFailed) :
    (RunAllTests (pre ++ JobRun.fioFailed :: post)).2 = pre.length + 1 ∧
    (RunAllTests (pre ++ JobRun.fioFailed :: post)).1 =
      (RunAllTests pre).1 := by
  induction pre with
  | nil => simp [RunAllTests]
  | cons j rest ih =>
    have hj : j ≠ JobRun.fioFailed := hpre j (List.mem_cons_self _ _)
    have ihr := ih fun x hx => hpre x (List.mem_cons_of_mem _ hx)
    cases j with
    | ok r =>
      constructor
      · simp only [List.cons_append, RunAllTests, List.length_cons]
        show (RunAllTests (rest ++ JobRun.fioFailed :: post)).2 + 1 =
          rest.length + 1 + 1
        rw [ihr.1]
      · simp only [List.cons_append, RunAllTests]
        show r.toList ++ (RunAllTests (rest ++ JobRun.fioFailed :: post)).1 =
          r.toList ++ (RunAllTests rest).1
        rw [ihr.2]
    | fioFailed => exact absurd rfl hj

/-- C4 (counterexample): at a successfully parsed run with read IOPS
`1/2`, write IOPS `0`, block size `1048576` and mean read latency `1/4`,
the emitted throughput is `0.50` MB/s (computed from the unrounded IOPS
sum) while `iops * blockSize / 1048576` is `0`, and the reported latency
is the 1-decimal-formatted `0.2`, not `max(1/4, 0) = 1/4`. -/
theorem runTest_outputs_cex :
    (RunTest none 30 1048576 1 1 0 512 false engFrac).csvRow.map
        (fun row => row.mbps) ≠
      (RunTest none 30 1048576 1 1 0 512 false engFrac).csvRow.map
        (fun row => row.iops * (1048576 : ℚ) / 1048576) ∧
    (RunTest none 30 1048576 1 1 0 512 false engFrac).retLat ≠
      max (1 / 4 : ℚ) 0 := by
  have hrow : (RunTest none 30 1048576 1 1 0 512 false engFrac).csvRow =
      some
        { wmix := 30
          bs := 1048576
          threads := 1
          iodepth := 1
          iops := 0
          mbps := 1 / 2
          rlat := 1 / 4
          wlat := 0
          syscpu := 0
          usrcpu := 0 } := by
    norm_num [RunTest, skipTest, engFrac, fmtRound, roundHalfEven,
      WriteExceedance]
  have hlat : (RunTest none 30 1048576 1 1 0 512 false engFrac).retLat =
      1 / 5 := by
    norm_num [RunTest, skipTest, engFrac, fmtRound, roundHalfEven]
  constructor
  · rw [hrow]
    intro h
    norm_num at h
  · rw [hlat]
    norm_num

/-- C4 (amended): for every successfully parsed run (no skip, exit code
zero) the CSV row carries `iops` equal to `rdiops + wriops` rounded
half-even to an integer, `mbps` equal to the **unrounded** sum
`(rdiops + wriops) * blockSize / 1048576` rounded half-even to 2
decimals (not derived from the rounded `iops`), and the returned
latency equal to `max(rlat, wlat)` rounded half-even to 1 decimal. -/
theorem runTest_computed_outputs (clusterHosts : Option ℕ)
    (wmix bs threads iodepth iomin : ℕ) (engine : EngineResult)
    (hbs : iomin ≤ bs) (hcode : engine.exitCode = 0) :
    (RunTest clusterHosts wmix bs threads iodepth 0 iomin false
        engine).csvRow =
      some
        { wmix := wmix
          bs := bs
          threads := threads
          iodepth := iodepth
          iops := fmtRound 0 (engine.stats.rdiops + engine.stats.wriops)
          mbps := fmtRound 2 ((engine.stats.rdiops + engine.stats.wriops) *
            (bs : ℚ) / (1024 * 1024))
          rlat := engine.stats.rlat
          wlat := engine.stats.wlat
          syscpu := engine.stats.syscpu
          usrcpu := engine.stats.usrcpu } ∧
    (RunTest clusterHosts wmix bs threads iodepth 0 iomin false
        engine).retLat =
      fmtRound 1 (max engine.stats.rlat engine.stats.wlat) := by
  have hskip : skipTest 0 bs iomin wmix false = false := by
    simp [skipTest, Nat.not_lt.mpr hbs]
  simp [RunTest, hskip, hcode]

/-- C4 witness: the amended computed-output theorem applied at block size
`1048576` with the concrete fractional-IOPS engine result. -/
theorem runTest_computed_outputs_witness :
    ((512 ≤ 1048576 ∧ engFrac.exitCode = 0) ∧
      ((RunTest none 30 1048576 1 1 0 512 false engFrac).csvRow =
        some
          { wmix := 30
            bs := 1048576
            threads := 1
            iodepth := 1
            iops := fmtRound 0 (engFrac.stats.rdiops + engFrac.stats.wriops)
            mbps := fmtRound 2 ((engFrac.stats.rdiops + engFrac.stats.wriops) *
              ((1048576 : ℕ) : ℚ) / (1024 * 1024))
            rlat := engFrac.stats.rlat
            wlat := engFrac.stats.wlat
            syscpu := engFrac.stats.syscpu
            usrcpu := engFrac.stats.usrcpu } ∧
      (RunTest none 30 1048576 1 1 0 512 false engFrac).retLat =
        fmtRound 1 (max engFrac.stats.rlat engFrac.stats.wlat))) :=
  ⟨⟨by decide, by decide⟩,
    runTest_computed_outputs none 30 1048576 1 1 512 engFrac (by decide)
      (by decide)⟩

/-- C5: a measurement whose block size is below the device's reported
minimum IO granularity (`blockdev --getpbsz` succeeded, i.e. exit code
`0`, and `bs < iomin`) is marked skipped, does not invoke the engine,
raises nothing, and appends an all-zero result row (zero IOPS, zero
throughput, zero latencies, zero CPU). -/
theorem runTest_skip_below_iomin (clusterHosts : Option ℕ)
    (wmix bs threads iodepth iomin : ℕ) (readOnly : Bool)
    (engine : EngineResult) (hlt : bs < iomin) :
    (RunTest clusterHosts wmix bs threads iodepth 0 iomin readOnly
        engine).skipped = true ∧
    (RunTest clusterHosts wmix bs threads iodepth 0 iomin readOnly
        engine).engineInvoked = false ∧
    (RunTest clusterHosts wmix bs threads iodepth 0 iomin readOnly
        engine).raised = false ∧
    (RunTest clusterHosts wmix bs threads iodepth 0 iomin readOnly
        engine).csvRow =
      some
        { wmix := wmix
          bs := bs
          threads := threads
          iodepth := iodepth
          iops := 0
          mbps := 0
          rlat := 0
          wlat := 0
          syscpu := 0
          usrcpu := 0 } ∧
    (RunTest clusterHosts wmix bs threads iodepth 0 iomin readOnly
        engine).retLat = 0 := by
  have hskip : skipTest 0 bs iomin wmix readOnly = true := by
    simp [skipTest, hlt]
  simp [RunTest, hskip, EngineStats.zero, fmtRound_zero]

/-- C5 witness: the skip theorem applied at block size `512` against a
device minimum of `4096`. -/
theorem runTest_skip_below_iomin_witness :
    (512 < 4096 ∧
      ((RunTest none 0 512 1 1 0 4096 false engFrac).skipped = true ∧
        (RunTest none 0 512 1 1 0 4096 false engFrac).engineInvoked = false ∧
        (RunTest none 0 512 1 1 0 4096 false engFrac).raised = false ∧
        (RunTest none 0 512 1 1 0 4096 false engFrac).csvRow =
          some
            { wmix := 0
              bs := 512
              threads := 1
              iodepth := 1
              iops := 0
              mbps := 0
              rlat := 0
              wlat := 0
              syscpu := 0
              usrcpu := 0 } ∧
        (RunTest none 0 512 1 1 0 4096 false engFrac).retLat = 0)) :=
  ⟨by decide, runTest_skip_below_iomin none 0 512 1 1 4096 false engFrac
    (by decide)⟩

/-- C6: a non-zero engine exit on a non-skipped run raises the typed
failure (after appending the `ERROR` marker, with no result row), and
once a failing job occurs in the plan, the number of started jobs is the
failing job's position and the collected result rows are exactly those
of the preceding jobs — nothing after the failure executes and no rows
for later descriptors exist. -/
theorem runAllTests_failFast (pre post : List JobRun)
    (hpre : ∀ j ∈ pre, j ≠ JobRun.fioFailed) (clusterHosts : Option ℕ)
    (wmix bs threads iodepth iomin : ℕ) (engine : EngineResult)
    (hbs : iomin ≤ bs) (hcode : engine.exitCode ≠ 0) :
    (RunTest clusterHosts wmix bs threads iodepth 0 iomin false
        engine).raised = true ∧
    (RunTest clusterHosts wmix bs threads iodepth 0 iomin false
        engine).errorMarked = true ∧
    (RunTest clusterHosts wmix bs threads iodepth 0 iomin false
        engine).csvRow = none ∧
    (RunAllTests (pre ++ JobRun.fioFailed :: post)).2 = pre.length + 1 ∧
    (RunAllTests (pre ++ JobRun.fioFailed :: post)).1 =
      (RunAllTests pre).1 := by
  have hskip : skipTest 0 bs iomin wmix false = false := by
    simp [skipTest, Nat.not_lt.mpr hbs]
  have h1 := runAllTests_failStop pre post hpre
  refine ⟨?_, ?_, ?_, h1.1, h1.2⟩ <;> simp [RunTest, hskip, hcode]

/-- C6 witness: the fail-fast theorem applied to a plan with one
successful job before and one job after the failing one, and to the
concrete failing engine result. -/
theorem runAllTests_failFast_witness :
    (((∀ j ∈ [JobRun.ok none], j ≠ JobRun.fioFailed) ∧ 512 ≤ 1048576 ∧
        engFail.exitCode ≠ 0) ∧
      ((RunTest none 30 1048576 1 1 0 512 false engFail).raised = true ∧
        (RunTest none 30 1048576 1 1 0 512 false engFail).errorMarked = true ∧
        (RunTest none 30 1048576 1 1 0 512 false engFail).csvRow = none ∧
        (RunAllTests
            ([JobRun.ok none] ++ JobRun.fioFailed :: [JobRun.ok none])).2 =
          [JobRun.ok none].length + 1 ∧
        (RunAllTests
            ([JobRun.ok none] ++ JobRun.fioFailed :: [JobRun.ok none])).1 =
          (RunAllTests [JobRun.ok none]).1)) :=
  ⟨⟨by decide, by decide, by decide⟩,
    runAllTests_failFast [JobRun.ok none] [JobRun.ok none] (by decide) none
      30 1048576 1 1 512 engFail (by decide) (by decide)⟩

/-- C7: a descriptor built by `AddTest` has queue depth
`threads * qdPerThread` when the thread-count field is set and `0` when
it is the empty string. -/
theorem addTest_queueDepth (wmix bs threads qdpt : Option ℕ) (il : Bool)
    (rt : Option ℕ) :
    (∀ t q, threads = some t → qdpt = some q →
      (AddTest wmix bs threads qdpt il rt).qd = t * q) ∧
    (threads = none → (AddTest wmix bs threads qdpt il rt).qd = 0) := by
  constructor
  · intro t q ht hq
    subst ht
    subst hq
    simp [AddTest]
  · intro h
    subst h
    rfl

/-- C7 witness: the queue-depth invariant applied at `threads = 2`,
`qdPerThread = 16` and at an empty thread-count field. -/
theorem addTest_queueDepth_witness :
    (((some 2 : Option ℕ) = some 2 ∧ (some 16 : Option ℕ) = some 16 ∧
        (AddTest none none (some 2) (some 16) false none).qd = 2 * 16) ∧
      ((none : Option ℕ) = none ∧
        (AddTest none none none (some 16) false none).qd = 0)) :=
  ⟨⟨rfl, rfl,
      (addTest_queueDepth none none (some 2) (some 16) false none).1 2 16 rfl
        rfl⟩,
    ⟨rfl, (addTest_queueDepth none none none (some 16) false none).2 rfl⟩⟩

/-- C8 (counterexample): a read-only run with nonzero write mix on which
`blockdev --getpbsz` failed (`pbszCode = 1`) is skipped, and on that
exit path the run crashes on the unbound `iomin` of line 843 before the
unlink: the created job file is never deleted, falsifying "deleted on
every exit path" as stated. -/
theorem jobfiles_leak_on_crash_cex :
    (RunTest none 30 4096 1 1 1 512 true engFrac).jobfilesDeleted ≠
      (RunTest none 30 4096 1 1 1 512 true engFrac).jobfilesCreated ∧
    (RunTest none 30 4096 1 1 1 512 true engFrac).crashed = true := by
  decide

/-- C8 (amended): every run that does not hit the unbound-`iomin` crash
deletes exactly the job-specification files it created — that is,
whenever `blockdev --getpbsz` succeeded, or whenever the run was not
skipped (which covers the engine-success path and the typed-failure
path) — and both conditioning passes always delete their files, in
single-node and cluster mode.  Only the skip path with a failed
`blockdev --getpbsz` leaks, by crashing before the unlink. -/
theorem jobfiles_deleted_on_surviving_paths (clusterHosts : Option ℕ)
    (wmix bs threads iodepth : ℕ) (pbszCode : ℤ) (iomin : ℕ)
    (readOnly : Bool) (engine : EngineResult) (condHosts : Option ℕ)
    (condReadOnly : Bool) (condCode : ℤ)
    (hok : pbszCode = 0 ∨ skipTest pbszCode bs iomin wmix readOnly = false) :
    (RunTest clusterHosts wmix bs threads iodepth pbszCode iomin readOnly
        engine).crashed = false ∧
    (RunTest clusterHosts wmix bs threads iodepth pbszCode iomin readOnly
        engine).jobfilesDeleted =
      (RunTest clusterHosts wmix bs threads iodepth pbszCode iomin readOnly
        engine).jobfilesCreated ∧
    (SequentialConditioning condHosts condReadOnly condCode).filesDeleted =
      (SequentialConditioning condHosts condReadOnly condCode).filesCreated ∧
    (RandomConditioning condHosts condReadOnly condCode).filesDeleted =
      (RandomConditioning condHosts condReadOnly condCode).filesCreated := by
  have h := runTest_no_crash clusterHosts wmix bs threads iodepth pbszCode
    iomin readOnly engine hok
  exact ⟨h.1, h.2, rfl, rfl⟩

/-- C8 witness: the deletion theorem applied on the skip path of a
read-only nonzero-write-mix run with `blockdev --getpbsz` succeeded, and
at concrete conditioning parameters (including a failing conditioning
exit code). -/
theorem jobfiles_deleted_on_surviving_paths_witness :
    (((0 : ℤ) = 0 ∨ skipTest 0 4096 512 30 true = false) ∧
      ((RunTest none 30 4096 1 1 0 512 true engFrac).crashed = false ∧
        (RunTest none 30 4096 1 1 0 512 true engFrac).jobfilesDeleted =
          (RunTest none 30 4096 1 1 0 512 true engFrac).jobfilesCreated ∧
        (SequentialConditioning none false 1).filesDeleted =
          (SequentialConditioning none false 1).filesCreated ∧
        (RandomConditioning none false 1).filesDeleted =
          (RandomConditioning none false 1).filesCreated)) :=
  ⟨Or.inl rfl,
    jobfiles_deleted_on_surviving_paths none 30 4096 1 1 0 512 true engFrac
      none false 1 (Or.inl rfl)⟩

/-- C9 (counterexample): a run skipped under read-only mode while
`blockdev --getpbsz` had failed (`pbszCode = 1`) is marked skipped but
emits no exceedance placeholder at all: the run crashes on the unbound
`iomin` of line 843 before the placeholder writes of lines 918-920,
falsifying "every run marked skipped emits the placeholder point
`(1, 1)`" as stated. -/
theorem skipped_placeholder_crash_cex :
    (RunTest none 30 4096 1 1 1 512 true engFrac).skipped = true ∧
    (RunTest none 30 4096 1 1 1 512 true engFrac).excRead ≠
      [((1 : ℚ), (1 : ℚ))] ∧
    (RunTest none 30 4096 1 1 1 512 true engFrac).excWrite ≠
      [((1 : ℚ), (1 : ℚ))] := by
  decide

/-- C9 (amended): a run marked skipped on which `blockdev --getpbsz`
succeeded (exit code `0`, so the skip path survives to the placeholder
writes) emits the single placeholder exceedance point `(1, 1)` for each
direction, and a histogram with zero total operations yields an empty
exceedance curve.  When `blockdev --getpbsz` failed, the skip path
crashes on the unbound `iomin` before writing any placeholder. -/
theorem skipped_exceedance_placeholder (clusterHosts : Option ℕ)
    (wmix bs threads iodepth : ℕ) (iomin : ℕ)
    (readOnly : Bool) (engine : EngineResult)
    (hsk : (RunTest clusterHosts wmix bs threads iodepth 0 iomin
        readOnly engine).skipped = true) :
    (RunTest clusterHosts wmix bs threads iodepth 0 iomin readOnly
        engine).excRead = [((1 : ℚ), (1 : ℚ))] ∧
    (RunTest clusterHosts wmix bs threads iodepth 0 iomin readOnly
        engine).excWrite = [((1 : ℚ), (1 : ℚ))] ∧
    ∀ bins : List (ℕ × ℕ), WriteExceedance 0 bins = [] := by
  have hskip : skipTest 0 bs iomin wmix readOnly = true :=
    (runTest_skipped_eq clusterHosts wmix bs threads iodepth 0 iomin
        readOnly engine).symm.trans hsk
  refine ⟨?_, ?_, ?_⟩
  · simp [RunTest, hskip]
  · simp [RunTest, hskip]
  · intro bins
    simp [WriteExceedance]

/-- C9 witness: the placeholder theorem applied at a run skipped for a
block size below the device minimum. -/
theorem skipped_exceedance_placeholder_witness :
    ((RunTest none 0 512 1 1 0 4096 false engFrac).skipped = true ∧
      ((RunTest none 0 512 1 1 0 4096 false engFrac).excRead =
        [((1 : ℚ), (1 : ℚ))] ∧
      (RunTest none 0 512 1 1 0 4096 false engFrac).excWrite =
        [((1 : ℚ), (1 : ℚ))] ∧
      ∀ bins : List (ℕ × ℕ), WriteExceedance 0 bins = [])) :=
  ⟨by decide,
    skipped_exceedance_placeholder none 0 512 1 1 4096 false engFrac
      (by decide)⟩

/-- C10 (counterexample): with read-only mode enabled and a nonzero
write mix, a run on which `blockdev --getpbsz` failed (`pbszCode = 1`)
is not treated like a below-minimum-block-size run: instead of emitting
an all-zero result row it crashes on the unbound `iomin` of line 843 and
appends nothing, falsifying the universal claim as stated. -/
theorem readOnly_skip_crash_cex :
    (RunTest none 30 4096 1 1 1 512 true engFrac).csvRow ≠
      some
        { wmix := 30
          bs := 4096
          threads := 1
          iodepth := 1
          iops := 0
          mbps := 0
          rlat := 0
          wlat := 0
          syscpu := 0
          usrcpu := 0 } ∧
    (RunTest none 30 4096 1 1 1 512 true engFrac).csvRow = none ∧
    (RunTest none 30 4096 1 1 1 512 true engFrac).crashed = true := by
  decide

/-- C10 (amended): with read-only mode enabled and `blockdev --getpbsz`
succeeded (exit code `0`), a measurement with nonzero write mix is
treated exactly like a below-minimum-block-size run — the engine is not
invoked, nothing is raised, and an all-zero result row is emitted — and
both conditioning passes always skip the engine invocation while still
reporting success.  When `blockdev --getpbsz` failed, the read-only
skip path crashes on the unbound `iomin` before emitting anything.  The
spec states neither the read-only skip rule nor this crash. -/
theorem readOnly_skip_behavior (clusterHosts : Option ℕ)
    (wmix bs threads iodepth : ℕ) (iomin : ℕ)
    (engine : EngineResult) (condHosts : Option ℕ) (condCode : ℤ)
    (hw : wmix ≠ 0) :
    (RunTest clusterHosts wmix bs threads iodepth 0 iomin true
        engine).skipped = true ∧
    (RunTest clusterHosts wmix bs threads iodepth 0 iomin true
        engine).engineInvoked = false ∧
    (RunTest clusterHosts wmix bs threads iodepth 0 iomin true
        engine).raised = false ∧
    (RunTest clusterHosts wmix bs threads iodepth 0 iomin true
        engine).csvRow =
      some
        { wmix := wmix
          bs := bs
          threads := threads
          iodepth := iodepth
          iops := 0
          mbps := 0
          rlat := 0
          wlat := 0
          syscpu := 0
          usrcpu := 0 } ∧
    (SequentialConditioning condHosts true condCode).engineInvoked = false ∧
    (SequentialConditioning condHosts true condCode).raised = false ∧
    (SequentialConditioning condHosts true condCode).returnedDone = true ∧
    (RandomConditioning condHosts true condCode).engineInvoked = false ∧
    (RandomConditioning condHosts true condCode).raised = false ∧
    (RandomConditioning condHosts true condCode).returnedDone = true := by
  have hskip : skipTest 0 bs iomin wmix true = true := by
    simp [skipTest, hw]
  refine ⟨?_, ?_, ?_, ?_, ?_, ?_, ?_, ?_, ?_, ?_⟩ <;>
    simp [RunTest, hskip, EngineStats.zero, fmtRound_zero,
      SequentialConditioning, RandomConditioning]

/-- C10 witness: the read-only skip theorem applied at a 30% write-mix
measurement and concrete conditioning parameters. -/
theorem readOnly_skip_behavior_witness :
    ((30 : ℕ) ≠ 0 ∧
      ((RunTest none 30 4096 1 1 0 512 true engFrac).skipped = true ∧
        (RunTest none 30 4096 1 1 0 512 true engFrac).engineInvoked = false ∧
        (RunTest none 30 4096 1 1 0 512 true engFrac).raised = false ∧
        (RunTest none 30 4096 1 1 0 512 true engFrac).csvRow =
          some
            { wmix := 30
              bs := 4096
              threads := 1
              iodepth := 1
              iops := 0
              mbps := 0
              rlat := 0
              wlat := 0
              syscpu := 0
              usrcpu := 0 } ∧
        (SequentialConditioning none true 0).engineInvoked = false ∧
        (SequentialConditioning none true 0).raised = false ∧
        (SequentialConditioning none true 0).returnedDone = true ∧
        (RandomConditioning none true 0).engineInvoked = false ∧
        (RandomConditioning none true 0).raised = false ∧
        (RandomConditioning none true 0).returnedDone = true)) :=
  ⟨by decide,
    readOnly_skip_behavior none 30 4096 1 1 512 engFrac none 0 (by decide)⟩

end Ezfio
